import Mathlib

/-!
Verification of the article-recommender scoring engine (`src/recommend.py`).

Modelling conventions:
* Python floats are idealised as real numbers `ℝ`; numeric data coming from
  the JSON stores (vectors, weights) is rational, so vectors are `List ℚ`.
* The corpus dict `article_vectors` is an association list `List (String × Article)`
  in dict insertion order; `article_ids` is its list of keys in the same order.
* `metadata['scraped_at']` parsing is abstracted to the resulting whole-day age
  `scrapedDaysOld`; `none` models a missing or unparseable timestamp
  (the `except (KeyError, ValueError)` branch of `_calculate_time_decay`).
* All embedded functions are total; the Python code paths proved about below
  raise no exceptions on the corresponding inputs.
-/

/-- Componentwise vector sum (numpy elementwise `+` on equal-length rows). -/
def vecAdd (u v : List ℚ) : List ℚ := List.zipWith (· + ·) u v

/-- `np.mean(vs, axis=0)`: componentwise arithmetic mean of a non-empty list of
equal-length vectors (on `[]` numpy errors; we return `[]`). -/
def vecMean : List (List ℚ) → List ℚ
  | [] => []
  | v :: vs => (vs.foldl vecAdd v).map fun x => x / ((vs.length + 1 : ℕ) : ℚ)

/-- Dot product of two rational vectors. -/
def dotQ (u v : List ℚ) : ℚ := (List.zipWith (· * ·) u v).sum

/-- `sklearn.metrics.pairwise.cosine_similarity` on a single pair:
`⟨u,v⟩ / (‖u‖·‖v‖)`.  (In Lean division by a zero norm yields `0`, matching
sklearn's convention that a zero vector has similarity `0`.) -/
noncomputable def cosSim (u v : List ℚ) : ℝ :=
  (dotQ u v : ℝ) / (Real.sqrt (dotQ u u : ℝ) * Real.sqrt (dotQ v v : ℝ))

/-- Round-half-to-even to an integer (Python `round` tie behaviour). -/
noncomputable def roundHalfEven (x : ℝ) : ℤ :=
  if x - ⌊x⌋ < 1/2 then ⌊x⌋
  else if 1/2 < x - ⌊x⌋ then ⌊x⌋ + 1
  else if 2 ∣ ⌊x⌋ then ⌊x⌋ else ⌊x⌋ + 1

/-- Python `round(x, 4)` idealised over the reals. -/
noncomputable def pyRound4 (x : ℝ) : ℝ := (roundHalfEven (x * 10000) : ℝ) / 10000

/-- `np.mean` of a list of reals. -/
noncomputable def meanR (l : List ℝ) : ℝ := l.sum / l.length

theorem roundHalfEven_intCast (n : ℤ) : roundHalfEven (n : ℝ) = n := by
  unfold roundHalfEven
  rw [Int.floor_intCast]
  simp

theorem pyRound4_zero : pyRound4 0 = 0 := by
  unfold pyRound4
  rw [zero_mul]
  rw [show (0 : ℝ) = ((0 : ℤ) : ℝ) by norm_num, roundHalfEven_intCast]
  norm_num

/-- One corpus item: `{vector, cluster?, metadata: {title, content, url, scraped_at}}`. -/
structure Article where
  vector : List ℚ
  cluster : Option ℤ := none
  title : String := ""
  content : String := ""
  url : String := ""
  scrapedDaysOld : Option ℤ := none
deriving DecidableEq

/-- Dict lookup `article_vectors[aid]` (`none` when `aid not in article_vectors`). -/
def lookupArticle (corpus : List (String × Article)) (aid : String) : Option Article :=
  (corpus.find? fun p => p.1 == aid).map Prod.snd

/-! ### `BaseRecommender._load_data` -/

/-- The items surviving the load filter: those with a vector field that is a
non-empty list (`'vector' in data and isinstance(data['vector'], list) and
len(data['vector']) > 0`); a raw item's `none` models an absent or non-list
vector field. -/
def validArticles (raw : List (String × Option (List ℚ))) : List (String × List ℚ) :=
  raw.filterMap fun p => p.2.bind fun v => if v.length > 0 then some (p.1, v) else none

/-- The pad-or-truncate step of `_load_data`'s vector loop. -/
def repairVector (D : ℕ) (v : List ℚ) : List ℚ :=
  if v.length = D then v
  else if v.length < D then v ++ List.replicate (D - v.length) 0
  else v.take D

/-- `_load_data`: filter invalid items, raise `ValueError` when none survive,
take the expected dimension `D` from the first survivor, and build the
`article_ids` list and the repaired `vector_array`. -/
def loadData (raw : List (String × Option (List ℚ))) :
    Except String (List String × List (List ℚ)) :=
  match validArticles raw with
  | [] => .error "No valid articles found with vectors"
  | (a0, v0) :: rest =>
      .ok (((a0, v0) :: rest).map Prod.fst,
           ((a0, v0) :: rest).map fun p => repairVector v0.length p.2)

theorem repairVector_length (D : ℕ) (v : List ℚ) : (repairVector D v).length = D := by
  unfold repairVector
  split_ifs with h1 h2
  · exact h1
  · simp only [List.length_append, List.length_replicate]
    omega
  · simp only [List.length_take]
    omega

/-! ### Profile aggregation (the `user_vecs` / `user_clusters` loops) -/

/-- The `user_vecs` loop: one vector per occurrence of a read id present in the
corpus (`_get_article_vector` never returns `None`). -/
def userVecs (corpus : List (String × Article)) (reads : List String) : List (List ℚ) :=
  reads.filterMap fun aid => (lookupArticle corpus aid).map Article.vector

/-- The `user_clusters` loop of the Advanced strategy: the cluster label of each
occurrence of a read id present in the corpus whose article has a `'cluster'`
field. -/
def userClusterHistory (corpus : List (String × Article)) (reads : List String) : List ℤ :=
  reads.filterMap fun aid => (lookupArticle corpus aid).bind Article.cluster

/-- `user_profile_vector = np.mean(user_vecs, axis=0)`. -/
def profileVector (corpus : List (String × Article)) (reads : List String) : List ℚ :=
  vecMean (userVecs corpus reads)

/-- The candidate loop: corpus items whose id is not in `user_reads`, kept in
corpus (`self.article_ids`) enumeration order. -/
def candidatesOf (corpus : List (String × Article)) (reads : List String) :
    List (String × Article) :=
  corpus.filter fun p => !(reads.contains p.1)

/-! ### The shared sort-and-truncate tail of both strategies -/

/-- `recommendations.sort(key=lambda x: x['score'], reverse=True)` followed by
`recommendations[:top_n]`.  Python's sort is stable, and a stable descending
sort is insertion sort with the relation `key b ≤ key a`: an earlier element
stays in front of every equal-keyed later one. -/
noncomputable def rankTake {α : Type} (key : α → ℝ) (l : List α) (n : ℕ) : List α :=
  (l.insertionSort fun a b => key b ≤ key a).take n

instance rankRelTotal {α : Type} (key : α → ℝ) :
    IsTotal α (fun a b => key b ≤ key a) :=
  ⟨fun a b => le_total (key b) (key a)⟩

instance rankRelTrans {α : Type} (key : α → ℝ) :
    IsTrans α (fun a b => key b ≤ key a) :=
  ⟨fun _ _ _ hab hbc => le_trans hbc hab⟩

theorem rankTake_length {α : Type} (key : α → ℝ) (l : List α) (n : ℕ) :
    (rankTake key l n).length = min n l.length := by
  simp [rankTake]

theorem rankTake_sorted {α : Type} (key : α → ℝ) (l : List α) (n : ℕ) :
    (rankTake key l n).Pairwise fun a b => key b ≤ key a := by
  have h : (l.insertionSort fun a b => key b ≤ key a).Pairwise fun a b => key b ≤ key a :=
    List.sorted_insertionSort _ l
  exact h.sublist (List.take_sublist _ _)

theorem rankTake_mem {α : Type} (key : α → ℝ) (l : List α) (n : ℕ) {a : α}
    (ha : a ∈ rankTake key l n) : a ∈ l := by
  have h1 : a ∈ l.insertionSort fun a b => key b ≤ key a :=
    (List.take_sublist _ _).mem ha
  exact (List.mem_insertionSort _).1 h1

theorem rankTake_perm {α : Type} (key : α → ℝ) (l : List α) (n : ℕ)
    (h : l.length ≤ n) : (rankTake key l n).Perm l := by
  unfold rankTake
  rw [List.take_of_length_le (by simpa using h)]
  exact List.perm_insertionSort _ l

theorem filter_orderedInsert_pos {α : Type} (r : α → α → Prop) [DecidableRel r]
    (q : α → Bool) (x : α) (L : List α) (hx : q x = true)
    (h : ∀ y, q y = true → r x y) :
    (L.orderedInsert r x).filter q = x :: L.filter q := by
  rw [List.orderedInsert_eq_take_drop, List.filter_append, List.filter_cons, hx]
  have htw : (L.takeWhile fun b => decide ¬(r x b)).filter q = [] := by
    rw [List.filter_eq_nil_iff]
    intro y hy
    have hyp := List.mem_takeWhile_imp hy
    simp only [decide_eq_true_eq] at hyp
    intro hqy
    exact hyp (h y hqy)
  rw [htw]
  conv_rhs => rw [← List.takeWhile_append_dropWhile (p := fun b => decide ¬(r x b)) (l := L)]
  rw [List.filter_append, htw]
  simp

theorem filter_orderedInsert_neg {α : Type} (r : α → α → Prop) [DecidableRel r]
    (q : α → Bool) (x : α) (L : List α) (hx : q x = false) :
    (L.orderedInsert r x).filter q = L.filter q := by
  rw [List.orderedInsert_eq_take_drop, List.filter_append, List.filter_cons, hx]
  conv_rhs => rw [← List.takeWhile_append_dropWhile (p := fun b => decide ¬(r x b)) (l := L)]
  rw [List.filter_append]
  simp

theorem filter_insertionSort {α : Type} (r : α → α → Prop) [DecidableRel r]
    (q : α → Bool) (l : List α) (hq : ∀ a b, q a = true → q b = true → r a b) :
    (l.insertionSort r).filter q = l.filter q := by
  induction l with
  | nil => rfl
  | cons x l ih =>
    rw [List.insertionSort]
    rcases hx : q x with hf | ht
    · rw [filter_orderedInsert_neg r q x _ hx, ih, List.filter_cons, hx]
      simp
    · rw [filter_orderedInsert_pos r q x _ hx (fun y hy => hq x y hx hy), ih,
        List.filter_cons, hx]
      simp

theorem filter_take_eq_take_filter {α : Type} (q : α → Bool) :
    ∀ (L : List α) (n : ℕ), ∃ k, (L.take n).filter q = (L.filter q).take k := by
  intro L
  induction L with
  | nil => intro n; exact ⟨0, by simp⟩
  | cons x L ih =>
    intro n
    cases n with
    | zero => exact ⟨0, by simp⟩
    | succ n =>
      obtain ⟨k, hk⟩ := ih n
      rcases hx : q x with hf | ht
      · exact ⟨k, by simp [List.filter_cons, hx, hk]⟩
      · exact ⟨k + 1, by simp [List.filter_cons, hx, hk]⟩

/-- Stability of the ranking: within each score class, the returned list is an
initial run of the candidates in enumeration order. -/
theorem rankTake_stable {α : Type} (key : α → ℝ) (l : List α) (n : ℕ) (s : ℝ) :
    ∃ k, ((rankTake key l n).filter fun a => key a = s) =
      (l.filter fun a => key a = s).take k := by
  unfold rankTake
  obtain ⟨k, hk⟩ :=
    filter_take_eq_take_filter (fun a => decide (key a = s))
      (l.insertionSort fun a b => key b ≤ key a) n
  refine ⟨k, ?_⟩
  rw [hk, filter_insertionSort]
  intro a b ha hb
  simp only [decide_eq_true_eq] at ha hb
  rw [ha, hb]

/-! ### `SimpleRecommender` -/

/-- A Simple-strategy recommendation record (`article_id`, `title`, `url`,
`score`). -/
structure SimpleRec where
  article_id : String
  title : String
  url : String
  score : ℝ

/-- The record `SimpleRecommender` builds for one candidate. -/
noncomputable def simpleRecOf (profile : List ℚ) (p : String × Article) : SimpleRec :=
  { article_id := p.1
    title := p.2.title
    url := p.2.url
    score := pyRound4 (cosSim profile p.2.vector) }

/-- The scored (pre-sort) recommendation list of `SimpleRecommender`, in
candidate enumeration order. -/
noncomputable def simpleScored (corpus : List (String × Article)) (reads : List String) :
    List SimpleRec :=
  (candidatesOf corpus reads).map (simpleRecOf (profileVector corpus reads))

/-- `SimpleRecommender.recommend_for_user` (with `article_vectors` equal to the
loaded corpus, as in every caller). -/
noncomputable def simpleRecommend (corpus : List (String × Article)) (reads : List String)
    (topN : ℕ) : List SimpleRec :=
  if reads = [] then []
  else if userVecs corpus reads = [] then []
  else if candidatesOf corpus reads = [] then []
  else rankTake SimpleRec.score (simpleScored corpus reads) topN

/-! ### `AdvancedRecommender` -/

/-- The state `AdvancedRecommender.__init__` stores: the weights and the decay
horizon are assigned as given; the constructor performs no validation of any
kind on them. -/
structure AdvancedParams where
  diversity_weight : ℚ := 3/10
  time_decay_days : ℤ := 30
  cluster_weight : ℚ := 1/5
deriving DecidableEq

/-- `AdvancedRecommender.__init__(diversity_weight, time_decay_days,
cluster_weight)`: stores the three parameters unchanged; there is no weight
check and no failure path. -/
def mkAdvancedRecommender (dw : ℚ) (tdd : ℤ) (cw : ℚ) : AdvancedParams :=
  { diversity_weight := dw, time_decay_days := tdd, cluster_weight := cw }

/-- `AdvancedRecommender._calculate_time_decay`: `exp(-days_old / time_decay_days)`
when `scraped_at` is present and parseable, `1.0` otherwise. -/
noncomputable def calculateTimeDecay (p : AdvancedParams) (a : Article) : ℝ :=
  match a.scrapedDaysOld with
  | none => 1
  | some d => Real.exp (-(d : ℝ) / (p.time_decay_days : ℝ))

/-- `AdvancedRecommender._calculate_cluster_similarity`. -/
def calculateClusterSimilarity (user_clusters : List ℤ) (article_cluster : ℤ) : ℚ :=
  if user_clusters = [] then 0
  else (user_clusters.count article_cluster : ℚ) / (user_clusters.length : ℚ)

/-- The cluster label the candidate loop assigns: the article's label, or the
sentinel `-1` when the article has no `'cluster'` field. -/
def candCluster (a : Article) : ℤ := a.cluster.getD (-1)

/-- An Advanced-strategy recommendation record, with the flattened
`similarity_components` breakdown `{semantic, freshness, topic}`. -/
structure AdvancedRec where
  article_id : String
  title : String
  content : String
  url : String
  score : ℝ
  semantic : ℝ
  freshness : ℝ
  topic : ℝ

/-- The unrounded semantic component of one candidate: cosine similarity of the
profile vector and the candidate vector. -/
noncomputable def semanticOf (profile : List ℚ) (p : String × Article) : ℝ :=
  cosSim profile p.2.vector

/-- The unrounded topic component of one candidate. -/
def topicOf (corpus : List (String × Article)) (reads : List String)
    (p : String × Article) : ℚ :=
  calculateClusterSimilarity (userClusterHistory corpus reads) (candCluster p.2)

/-- The record `AdvancedRecommender` builds for one candidate:
`final_score = semantic·(1 − diversity_weight − cluster_weight)
 + time_decay·diversity_weight + cluster_sim·cluster_weight`, every stored
field rounded to 4 decimal places. -/
noncomputable def advancedRecOf (par : AdvancedParams) (corpus : List (String × Article))
    (reads : List String) (profile : List ℚ) (p : String × Article) : AdvancedRec :=
  { article_id := p.1
    title := p.2.title
    content := p.2.content
    url := p.2.url
    score := pyRound4 (semanticOf profile p * (1 - (par.diversity_weight : ℝ) - (par.cluster_weight : ℝ)) +
      calculateTimeDecay par p.2 * (par.diversity_weight : ℝ) +
      (topicOf corpus reads p : ℝ) * (par.cluster_weight : ℝ))
    semantic := pyRound4 (semanticOf profile p)
    freshness := pyRound4 (calculateTimeDecay par p.2)
    topic := pyRound4 (topicOf corpus reads p : ℝ) }

/-- The scored (pre-sort) recommendation list of `AdvancedRecommender`, in
candidate enumeration order. -/
noncomputable def advancedScored (par : AdvancedParams) (corpus : List (String × Article))
    (reads : List String) : List AdvancedRec :=
  (candidatesOf corpus reads).map
    (advancedRecOf par corpus reads (profileVector corpus reads))

/-- `AdvancedRecommender.recommend_for_user` (with `article_vectors` equal to
the loaded corpus, as in every caller). -/
noncomputable def advancedRecommend (par : AdvancedParams) (corpus : List (String × Article))
    (reads : List String) (topN : ℕ) : List AdvancedRec :=
  if reads = [] then []
  else if userVecs corpus reads = [] then []
  else if candidatesOf corpus reads = [] then []
  else rankTake AdvancedRec.score (advancedScored par corpus reads) topN

/-! ### `AdvancedRecommender._maximal_marginal_relevance` -/

/-- `np.argmax`: index of the first occurrence of the maximum (0 on `[]`,
where numpy raises instead). -/
noncomputable def argmaxIdx : List ℝ → ℕ
  | [] => 0
  | x :: xs => if ∀ y ∈ xs, y ≤ x then 0 else argmaxIdx xs + 1

/-- One step of the MMR selection loop: the remaining index maximizing the MMR
score `λ·relevance − (1−λ)·np.mean(similarity to the already-selected)`,
resolved by `remaining[np.argmax(mmr_scores)]`. -/
noncomputable def mmrPick (lam : ℝ) (rel : ℕ → ℝ) (pairSim : ℕ → ℕ → ℝ)
    (selected remaining : List ℕ) : ℕ :=
  remaining.getD
    (argmaxIdx (remaining.map fun idx =>
      lam * rel idx - (1 - lam) * meanR (selected.map fun j => pairSim idx j))) 0

/-- The MMR `while` loop: while fewer than `top_n` indices are selected and
candidates remain, append the `mmrPick` index to `selected` and remove it from
`remaining`.  `fuel` bounds the recursion; with `fuel ≥ remaining.length` it
never runs out. -/
noncomputable def mmrLoop (lam : ℝ) (rel : ℕ → ℝ) (pairSim : ℕ → ℕ → ℝ) (topN : ℕ) :
    ℕ → List ℕ → List ℕ → List ℕ
  | 0, selected, _ => selected
  | fuel + 1, selected, remaining =>
    if selected.length < topN ∧ remaining ≠ [] then
      mmrLoop lam rel pairSim topN fuel
        (selected ++ [mmrPick lam rel pairSim selected remaining])
        (remaining.erase (mmrPick lam rel pairSim selected remaining))
    else selected

/-- The per-pair relevance list `similarities = cosine_similarity([query_vector],
candidate_vectors)[0]`. -/
noncomputable def mmrSims (query : List ℚ) (cands : List (String × List ℚ)) : List ℝ :=
  cands.map fun c => cosSim query c.2

/-- `AdvancedRecommender._maximal_marginal_relevance`: pick the most relevant
candidate first (before the loop test), then greedily add the remaining
candidate with the best MMR score until `top_n` indices are selected or
candidates run out; return `(candidate_ids[i], similarities[i])` for the
selected indices in selection order. -/
noncomputable def maximalMarginalRelevance (query : List ℚ)
    (cands : List (String × List ℚ)) (lam : ℝ) (topN : ℕ) : List (String × ℝ) :=
  (mmrLoop lam (fun i => (mmrSims query cands).getD i 0)
      (fun i j => cosSim (cands.getD i ("", [])).2 (cands.getD j ("", [])).2)
      topN cands.length [argmaxIdx (mmrSims query cands)]
      ((List.range cands.length).erase (argmaxIdx (mmrSims query cands)))).map
    fun i => ((cands.getD i ("", [])).1, (mmrSims query cands).getD i 0)

/-! ### The reachable error paths of `recommend_for_user`

`_load_data` repairs only `self.vector_array`, never the `article_vectors`
dict that the scoring loops read through `_get_article_vector`, so scoring sees
the raw stored vectors.  Within the typed data model the scoring paths can
raise in exactly these ways:
* `np.mean(user_vecs, axis=0)` raises `ValueError` on a ragged `user_vecs`;
* `np.array(candidate_vectors)` / `cosine_similarity` raise `ValueError` on a
  ragged candidate set or on a profile/candidate dimension mismatch;
* (Advanced only) `_calculate_time_decay` raises `ZeroDivisionError` when
  `time_decay_days = 0` and a candidate's `scraped_at` is present and
  parseable: the division `-days_old / self.time_decay_days` is inside the
  `try`, but `ZeroDivisionError` is not among the caught
  `(KeyError, ValueError)`, so it propagates out of `recommend_for_user`.
The early returns (empty reads, no known reads, no candidates) all happen
before the first fallible operation. -/

/-- `true` iff some row's length differs from the first row's length: such a
list makes `np.mean(…, axis=0)` / `np.array(…)` raise `ValueError`. -/
def ragged (vs : List (List ℚ)) : Bool :=
  match vs with
  | [] => false
  | v :: rest => rest.any fun u => u.length != v.length

/-- The first row's length: the dimension numpy infers for a homogeneous
array. -/
def headLen (vs : List (List ℚ)) : ℕ := (vs.headD []).length

/-- `SimpleRecommender.recommend_for_user` with its reachable error paths made
explicit, in the order the code hits them: `.error` marks the inputs on which
the Python raises, `.ok` carries the recommendation list otherwise. -/
noncomputable def simpleRecommendE (corpus : List (String × Article))
    (reads : List String) (topN : ℕ) : Except String (List SimpleRec) :=
  if reads = [] then .ok []
  else if userVecs corpus reads = [] then .ok []
  else if ragged (userVecs corpus reads) then
    .error "ValueError: ragged user vectors"
  else if candidatesOf corpus reads = [] then .ok []
  else if ragged ((candidatesOf corpus reads).map fun p => p.2.vector) then
    .error "ValueError: ragged candidate vectors"
  else if headLen (userVecs corpus reads) ≠
      headLen ((candidatesOf corpus reads).map fun p => p.2.vector) then
    .error "ValueError: dimension mismatch"
  else .ok (rankTake SimpleRec.score (simpleScored corpus reads) topN)

/-- `AdvancedRecommender.recommend_for_user` with its reachable error paths
made explicit: the Simple ones, plus the uncaught `ZeroDivisionError` of
`_calculate_time_decay` when `time_decay_days = 0` and some candidate has a
parseable `scraped_at`. -/
noncomputable def advancedRecommendE (par : AdvancedParams)
    (corpus : List (String × Article)) (reads : List String) (topN : ℕ) :
    Except String (List AdvancedRec) :=
  if reads = [] then .ok []
  else if userVecs corpus reads = [] then .ok []
  else if ragged (userVecs corpus reads) then
    .error "ValueError: ragged user vectors"
  else if candidatesOf corpus reads = [] then .ok []
  else if ragged ((candidatesOf corpus reads).map fun p => p.2.vector) then
    .error "ValueError: ragged candidate vectors"
  else if headLen (userVecs corpus reads) ≠
      headLen ((candidatesOf corpus reads).map fun p => p.2.vector) then
    .error "ValueError: dimension mismatch"
  else if par.time_decay_days = 0 ∧
      (candidatesOf corpus reads).any (fun p => p.2.scrapedDaysOld.isSome) then
    .error "ZeroDivisionError"
  else .ok (rankTake AdvancedRec.score (advancedScored par corpus reads) topN)

/-! ### `BaseRecommender.generate_all_recommendations` -/

/-- `generate_all_recommendations`: one entry per user profile, computed
independently inside the per-user `try/except` — a profile whose scoring
raises is logged and omitted from the output mapping, and the loop moves on to
the next user; the batch itself never aborts. -/
def generateAllRecommendations {α : Type}
    (recommend : List String → ℕ → Except String (List α))
    (user_profiles : List (String × List String)) (topN : ℕ) :
    List (String × List α) :=
  user_profiles.filterMap fun p =>
    match recommend p.2 topN with
    | .ok recs => some (p.1, recs)
    | .error _ => none

/-! ### Concrete corpora used to instantiate the theorems -/

/-- A raw store whose first surviving item has dimension 2, with one shorter
and one longer vector, one absent vector and one empty vector. -/
def exRawMixed : List (String × Option (List ℚ)) :=
  [("a", some [1, 2]), ("b", some [3]), ("c", some [4, 5, 6]),
   ("d", none), ("e", some [])]

/-- The spec's example item `a`: `vector=[1,0]`, `cluster=0`, fresh. -/
def artA : Article := { vector := [1, 0], cluster := some 0 }

/-- The spec's example item `b`: `vector=[0,1]`, `cluster=1`, fresh. -/
def artB : Article := { vector := [0, 1], cluster := some 1 }

/-- The spec's two-item example corpus. -/
def exCorpusAB : List (String × Article) := [("a", artA), ("b", artB)]

/-- An article whose stored cluster label is the sentinel value `-1`. -/
def artNegCluster : Article := { vector := [1], cluster := some (-1) }

/-- An article with no `'cluster'` field. -/
def artNoCluster : Article := { vector := [1] }

/-- A corpus where a read item's real cluster label collides with the `-1`
sentinel used for candidates without a label. -/
def exCorpusSentinel : List (String × Article) :=
  [("x", artNegCluster), ("y", artNoCluster)]

/-- A single-item corpus. -/
def exCorpusSingle : List (String × Article) := [("a", artA)]

/-- User profiles for the batch example: `u1` read `a`, `u2` references only an
item id unknown to the corpus. -/
def exProfiles : List (String × List String) := [("u1", ["a"]), ("u2", ["zzz"])]

/-- Like `artA`, but with a parseable `scraped_at` (3 days old). -/
def artADated : Article := { vector := [1, 0], cluster := some 0, scrapedDaysOld := some 3 }

/-- Like `artB`, but with a parseable `scraped_at` (5 days old). -/
def artBDated : Article := { vector := [0, 1], cluster := some 1, scrapedDaysOld := some 5 }

/-- The two-item corpus with dated articles. -/
def exCorpusDated : List (String × Article) := [("a", artADated), ("b", artBDated)]

/-- Advanced parameters with `time_decay_days = 0`: `_calculate_time_decay`
then divides by zero on any dated candidate. -/
def parZeroDecay : AdvancedParams :=
  { diversity_weight := 3/10, time_decay_days := 0, cluster_weight := 1/5 }

/-! ### Claim C5 — dimension repair during load -/

/-- C5: during load, with `D` the vector length of the first surviving item,
loading succeeds without raising, every row of the resulting vector array has
length exactly `D`, each surviving vector shorter than `D` is zero-padded at
the end, and each one longer than `D` is truncated to its first `D` entries. -/
theorem C5_dimension_repair (raw : List (String × Option (List ℚ)))
    (a0 : String) (v0 : List ℚ) (rest : List (String × List ℚ))
    (hv : validArticles raw = (a0, v0) :: rest) :
    ∃ ids vecs, loadData raw = .ok (ids, vecs) ∧
      (∀ row ∈ vecs, row.length = v0.length) ∧
      vecs = (validArticles raw).map (fun p => repairVector v0.length p.2) ∧
      (∀ p ∈ validArticles raw, p.2.length < v0.length →
        repairVector v0.length p.2 = p.2 ++ List.replicate (v0.length - p.2.length) 0) ∧
      (∀ p ∈ validArticles raw, v0.length < p.2.length →
        repairVector v0.length p.2 = p.2.take v0.length) := by
  refine ⟨((a0, v0) :: rest).map Prod.fst,
    ((a0, v0) :: rest).map (fun p => repairVector v0.length p.2), ?_, ?_, ?_, ?_, ?_⟩
  · unfold loadData
    rw [hv]
  · intro row hrow
    obtain ⟨p, _, hp⟩ := List.mem_map.1 hrow
    rw [← hp]
    exact repairVector_length _ _
  · rw [hv]
  · intro p _ hlt
    unfold repairVector
    rw [if_neg (by omega), if_pos hlt]
  · intro p _ hgt
    unfold repairVector
    rw [if_neg (by omega), if_neg (by omega)]

/-- C5 witness: the mixed-length store `exRawMixed` (first surviving dimension
2, one vector of length 1, one of length 3). -/
theorem C5_dimension_repair_witness :
    ∃ ids vecs, loadData exRawMixed = .ok (ids, vecs) ∧
      (∀ row ∈ vecs, row.length = List.length [(1 : ℚ), 2]) ∧
      vecs = (validArticles exRawMixed).map
        (fun p => repairVector (List.length [(1 : ℚ), 2]) p.2) ∧
      (∀ p ∈ validArticles exRawMixed, p.2.length < List.length [(1 : ℚ), 2] →
        repairVector (List.length [(1 : ℚ), 2]) p.2 =
          p.2 ++ List.replicate (List.length [(1 : ℚ), 2] - p.2.length) 0) ∧
      (∀ p ∈ validArticles exRawMixed, List.length [(1 : ℚ), 2] < p.2.length →
        repairVector (List.length [(1 : ℚ), 2]) p.2 = p.2.take (List.length [(1 : ℚ), 2])) :=
  C5_dimension_repair exRawMixed "a" [1, 2] [("b", [3]), ("c", [4, 5, 6])] (by decide)

/-! ### Claim C1 — no weight validation at construction -/

/-- C1 (evaluating the code at the failing input): `AdvancedRecommender.__init__`
performs no weight validation whatsoever — construction succeeds for every
weight pair and stores the weights unchanged; in particular with
`diversity_weight = 1.5` and `cluster_weight = 0.2` (sum `1.7 > 1`, the input
of the repository's own `test_invalid_diversity_weight`) no error is raised,
and no `InvalidWeightError` exists anywhere in the code. -/
theorem C1_no_weight_validation :
    (∀ dw tdd cw, mkAdvancedRecommender dw tdd cw =
      { diversity_weight := dw, time_decay_days := tdd, cluster_weight := cw }) ∧
    mkAdvancedRecommender (3/2) 30 (1/5) =
      { diversity_weight := 3/2, time_decay_days := 30, cluster_weight := 1/5 } ∧
    (3/2 : ℚ) + 1/5 > 1 :=
  ⟨fun _ _ _ => rfl, rfl, by norm_num⟩

/-! ### Claim C4 — empty read list / unknown reads / empty candidate set -/

/-- C10: each occurrence of a read id present in the corpus contributes its
vector once per occurrence to the profile input and its cluster label once per
occurrence to the cluster history; the number of contributed vectors counts
occurrences (not distinct ids), and the profile vector is the mean of that
multiplicity-weighted vector list. -/
theorem C10_multiplicity (corpus : List (String × Article)) (reads : List String)
    (aid : String) (art : Article) (hl : lookupArticle corpus aid = some art) :
    userVecs corpus (aid :: reads) = art.vector :: userVecs corpus reads ∧
    userClusterHistory corpus (aid :: reads) =
      art.cluster.toList ++ userClusterHistory corpus reads ∧
    (userVecs corpus reads).length =
      reads.countP (fun a => (lookupArticle corpus a).isSome) ∧
    profileVector corpus reads = vecMean (userVecs corpus reads) := by
  refine ⟨?_, ?_, ?_, rfl⟩
  · rw [userVecs, List.filterMap_cons, hl]
    rfl
  · rw [userClusterHistory, List.filterMap_cons, hl]
    cases hc : art.cluster <;> simp [hc, userClusterHistory]
  · have key : ∀ l : List String,
        (l.filterMap fun a2 => (lookupArticle corpus a2).map Article.vector).length =
          l.countP fun a2 => (lookupArticle corpus a2).isSome := by
      intro l
      induction l with
      | nil => rfl
      | cons a t ih =>
        rw [List.filterMap_cons, List.countP_cons]
        cases hla : lookupArticle corpus a <;> simp [hla, ih]
    exact key reads

/-- C10 witness: reading `a` twice in the two-item corpus contributes `a`'s
vector (and cluster label) twice. -/
theorem C10_multiplicity_witness :
    userVecs exCorpusAB ("a" :: ["a", "b"]) =
      artA.vector :: userVecs exCorpusAB ["a", "b"] ∧
    userClusterHistory exCorpusAB ("a" :: ["a", "b"]) =
      artA.cluster.toList ++ userClusterHistory exCorpusAB ["a", "b"] ∧
    (userVecs exCorpusAB ["a", "b"]).length =
      (["a", "b"].countP fun a => (lookupArticle exCorpusAB a).isSome) ∧
    profileVector exCorpusAB ["a", "b"] = vecMean (userVecs exCorpusAB ["a", "b"]) :=
  C10_multiplicity exCorpusAB ["a", "b"] "a" artA (by decide)

/-! ### Claim C6 — the topic component and the `-1` sentinel -/

/-- C6 counterexample: in a corpus where the read item `x` carries the real
cluster label `-1`, the candidate `y` has no cluster label at all, yet its
topic component is `1`, not `0` — the claim's "equals 0 whenever the candidate
has no cluster label" is false on the code. -/
theorem C6_counterexample :
    candidatesOf exCorpusSentinel ["x"] = [("y", artNoCluster)] ∧
    artNoCluster.cluster = none ∧
    userClusterHistory exCorpusSentinel ["x"] = [-1] ∧
    topicOf exCorpusSentinel ["x"] ("y", artNoCluster) = 1 ∧ (1 : ℚ) ≠ 0 := by
  refine ⟨by decide, by decide, by decide, ?_, by norm_num⟩
  have h1 : userClusterHistory exCorpusSentinel ["x"] = [-1] := by decide
  have h2 : candCluster artNoCluster = -1 := by decide
  simp only [topicOf, h1, h2, calculateClusterSimilarity]
  norm_num

/-- C6 (amended): the topic component is `count(candidate cluster in history) /
len(history)` with a candidate lacking a cluster label treated as carrying the
sentinel label `-1`; it is `0` when the cluster history is empty, and `0` for a
label-less candidate provided no read item's real label is `-1`. -/
theorem C6_topic_component (corpus : List (String × Article)) (reads : List String)
    (p : String × Article) :
    (userClusterHistory corpus reads = [] → topicOf corpus reads p = 0) ∧
    (userClusterHistory corpus reads ≠ [] →
      topicOf corpus reads p =
        ((userClusterHistory corpus reads).count (p.2.cluster.getD (-1)) : ℚ) /
          ((userClusterHistory corpus reads).length : ℚ)) ∧
    (p.2.cluster = none → (-1 : ℤ) ∉ userClusterHistory corpus reads →
      topicOf corpus reads p = 0) := by
  refine ⟨?_, ?_, ?_⟩
  · intro h
    rw [topicOf, calculateClusterSimilarity, if_pos h]
  · intro h
    rw [topicOf, calculateClusterSimilarity, if_neg h]
    rfl
  · intro hnone hmem
    rw [topicOf, calculateClusterSimilarity]
    split_ifs with h
    · rfl
    · rw [candCluster, hnone, Option.getD_none,
        List.count_eq_zero_of_not_mem hmem]
      simp

/-- C6 witness: candidate `b` (cluster `1`) against history `[0]`, and the
label-less candidate against a history not containing `-1`. -/
theorem C6_topic_component_witness :
    (topicOf exCorpusAB ["a"] ("b", artB) =
      ((userClusterHistory exCorpusAB ["a"]).count (artB.cluster.getD (-1)) : ℚ) /
        ((userClusterHistory exCorpusAB ["a"]).length : ℚ)) ∧
    topicOf exCorpusAB ["a"] ("c", artNoCluster) = 0 :=
  ⟨(C6_topic_component exCorpusAB ["a"] ("b", artB)).2.1 (by decide),
   (C6_topic_component exCorpusAB ["a"] ("c", artNoCluster)).2.2 (by decide) (by decide)⟩

/-! ### Reduction of the two strategies to the shared rank-and-take tail -/

theorem simpleRecommend_eq (corpus : List (String × Article)) (reads : List String)
    (topN : ℕ) (h1 : reads ≠ []) (h2 : userVecs corpus reads ≠ []) :
    simpleRecommend corpus reads topN =
      rankTake SimpleRec.score (simpleScored corpus reads) topN := by
  unfold simpleRecommend
  rw [if_neg h1, if_neg h2]
  split_ifs with hc
  · rw [simpleScored, hc]
    simp [rankTake]
  · rfl

theorem advancedRecommend_eq (par : AdvancedParams) (corpus : List (String × Article))
    (reads : List String) (topN : ℕ) (h1 : reads ≠ []) (h2 : userVecs corpus reads ≠ []) :
    advancedRecommend par corpus reads topN =
      rankTake AdvancedRec.score (advancedScored par corpus reads) topN := by
  unfold advancedRecommend
  rw [if_neg h1, if_neg h2]
  split_ifs with hc
  · rw [advancedScored, hc]
    simp [rankTake]
  · rfl

/-! ### Claim C3 — the Advanced final-score formula and its components -/

/-- C3: the record the Advanced strategy builds for the `i`-th candidate has
`score = round4(semantic·(1 − diversityWeight − clusterWeight)
 + freshness·diversityWeight + topic·clusterWeight)` over the unrounded
components, and carries the three component scores each rounded to 4 decimal
places. -/
theorem C3_final_score_formula (par : AdvancedParams) (corpus : List (String × Article))
    (reads : List String) (i : ℕ) (hi : i < (candidatesOf corpus reads).length) :
    ∃ p, (candidatesOf corpus reads)[i]? = some p ∧
      (advancedScored par corpus reads)[i]? = some
        { article_id := p.1
          title := p.2.title
          content := p.2.content
          url := p.2.url
          score := pyRound4
            (semanticOf (profileVector corpus reads) p *
                (1 - (par.diversity_weight : ℝ) - (par.cluster_weight : ℝ)) +
              calculateTimeDecay par p.2 * (par.diversity_weight : ℝ) +
              (topicOf corpus reads p : ℝ) * (par.cluster_weight : ℝ))
          semantic := pyRound4 (semanticOf (profileVector corpus reads) p)
          freshness := pyRound4 (calculateTimeDecay par p.2)
          topic := pyRound4 ((topicOf corpus reads p : ℝ)) } := by
  refine ⟨(candidatesOf corpus reads)[i], List.getElem?_eq_getElem hi, ?_⟩
  rw [advancedScored, List.getElem?_map, List.getElem?_eq_getElem hi]
  rfl

/-- C3 witness: the only candidate (`b`) of the two-item corpus after reading
`a`, with the default weights. -/
theorem C3_final_score_formula_witness :
    ∃ p, (candidatesOf exCorpusAB ["a"])[0]? = some p ∧
      (advancedScored {} exCorpusAB ["a"])[0]? = some
        { article_id := p.1
          title := p.2.title
          content := p.2.content
          url := p.2.url
          score := pyRound4
            (semanticOf (profileVector exCorpusAB ["a"]) p *
                (1 - (({} : AdvancedParams).diversity_weight : ℝ) -
                  (({} : AdvancedParams).cluster_weight : ℝ)) +
              calculateTimeDecay {} p.2 * (({} : AdvancedParams).diversity_weight : ℝ) +
              (topicOf exCorpusAB ["a"] p : ℝ) * (({} : AdvancedParams).cluster_weight : ℝ))
          semantic := pyRound4 (semanticOf (profileVector exCorpusAB ["a"]) p)
          freshness := pyRound4 (calculateTimeDecay {} p.2)
          topic := pyRound4 ((topicOf exCorpusAB ["a"] p : ℝ)) } :=
  C3_final_score_formula {} exCorpusAB ["a"] 0 (by decide)

/-! ### Claim C2 — the shared output contract of both strategies -/

theorem mem_candidatesOf_not_read {corpus : List (String × Article)}
    {reads : List String} {p : String × Article}
    (hp : p ∈ candidatesOf corpus reads) : p.1 ∉ reads := by
  have hc := (List.mem_filter.1 hp).2
  simpa using hc

/-- C2 counterexample: with an empty read list over a non-empty corpus the
candidate set is the whole corpus — here 1 candidate, fewer than `topN = 5` —
yet both strategies return the empty list, not all candidates, so the claim as
stated (quantified over every read list) is false. -/
theorem C2_counterexample :
    simpleRecommend exCorpusSingle [] 5 = [] ∧
    advancedRecommend {} exCorpusSingle [] 5 = [] ∧
    (candidatesOf exCorpusSingle []).length = 1 ∧ (1 : ℕ) < 5 :=
  ⟨by simp [simpleRecommend], by simp [advancedRecommend], by decide, by norm_num⟩

/-- C2 (amended): for every corpus, read list and topN, for both strategies,
provided at least one read id is present in the corpus (otherwise the empty
list is returned — see the counterexample): the returned list has length
≤ min(topN, candidateCount), is sorted by score descending, keeps ties in
candidate enumeration order (within each score class the output is an initial
run of the scored candidate list), contains no item id present in the read
list, and is a permutation of the whole scored candidate list whenever at most
topN candidates exist. -/
theorem C2_output_contract (par : AdvancedParams) (corpus : List (String × Article))
    (reads : List String) (topN : ℕ) (hv : userVecs corpus reads ≠ []) :
    ((simpleRecommend corpus reads topN).length ≤
        min topN (candidatesOf corpus reads).length ∧
      (simpleRecommend corpus reads topN).Pairwise (fun a b => b.score ≤ a.score) ∧
      (∀ r ∈ simpleRecommend corpus reads topN, r.article_id ∉ reads) ∧
      ((candidatesOf corpus reads).length ≤ topN →
        (simpleRecommend corpus reads topN).Perm (simpleScored corpus reads)) ∧
      (∀ s : ℝ, ∃ k, ((simpleRecommend corpus reads topN).filter fun r => r.score = s) =
        ((simpleScored corpus reads).filter fun r => r.score = s).take k)) ∧
    ((advancedRecommend par corpus reads topN).length ≤
        min topN (candidatesOf corpus reads).length ∧
      (advancedRecommend par corpus reads topN).Pairwise (fun a b => b.score ≤ a.score) ∧
      (∀ r ∈ advancedRecommend par corpus reads topN, r.article_id ∉ reads) ∧
      ((candidatesOf corpus reads).length ≤ topN →
        (advancedRecommend par corpus reads topN).Perm (advancedScored par corpus reads)) ∧
      (∀ s : ℝ, ∃ k,
        ((advancedRecommend par corpus reads topN).filter fun r => r.score = s) =
          ((advancedScored par corpus reads).filter fun r => r.score = s).take k)) := by
  have h1 : reads ≠ [] := by
    rintro rfl
    exact hv rfl
  have hseq := simpleRecommend_eq corpus reads topN h1 hv
  have haeq := advancedRecommend_eq par corpus reads topN h1 hv
  have hslen : (simpleScored corpus reads).length = (candidatesOf corpus reads).length := by
    rw [simpleScored, List.length_map]
  have halen : (advancedScored par corpus reads).length =
      (candidatesOf corpus reads).length := by
    rw [advancedScored, List.length_map]
  constructor
  · refine ⟨?_, ?_, ?_, ?_, ?_⟩
    · rw [hseq, rankTake_length, hslen]
    · rw [hseq]
      exact rankTake_sorted _ _ _
    · intro r hr
      rw [hseq] at hr
      obtain ⟨p, hp, rfl⟩ := List.mem_map.1 (rankTake_mem _ _ _ hr)
      exact mem_candidatesOf_not_read hp
    · intro hle
      rw [hseq]
      exact rankTake_perm _ _ _ (by rw [hslen]; exact hle)
    · intro s
      rw [hseq]
      exact rankTake_stable _ _ _ s
  · refine ⟨?_, ?_, ?_, ?_, ?_⟩
    · rw [haeq, rankTake_length, halen]
    · rw [haeq]
      exact rankTake_sorted _ _ _
    · intro r hr
      rw [haeq] at hr
      obtain ⟨p, hp, rfl⟩ := List.mem_map.1 (rankTake_mem _ _ _ hr)
      exact mem_candidatesOf_not_read hp
    · intro hle
      rw [haeq]
      exact rankTake_perm _ _ _ (by rw [halen]; exact hle)
    · intro s
      rw [haeq]
      exact rankTake_stable _ _ _ s

/-- C2 witness: the two-item corpus after reading `a`, with `topN = 5`. -/
theorem C2_output_contract_witness :
    ((simpleRecommend exCorpusAB ["a"] 5).length ≤
        min 5 (candidatesOf exCorpusAB ["a"]).length ∧
      (simpleRecommend exCorpusAB ["a"] 5).Pairwise (fun a b => b.score ≤ a.score) ∧
      (∀ r ∈ simpleRecommend exCorpusAB ["a"] 5, r.article_id ∉ ["a"]) ∧
      ((candidatesOf exCorpusAB ["a"]).length ≤ 5 →
        (simpleRecommend exCorpusAB ["a"] 5).Perm (simpleScored exCorpusAB ["a"])) ∧
      (∀ s : ℝ, ∃ k, ((simpleRecommend exCorpusAB ["a"] 5).filter fun r => r.score = s) =
        ((simpleScored exCorpusAB ["a"]).filter fun r => r.score = s).take k)) ∧
    ((advancedRecommend {} exCorpusAB ["a"] 5).length ≤
        min 5 (candidatesOf exCorpusAB ["a"]).length ∧
      (advancedRecommend {} exCorpusAB ["a"] 5).Pairwise (fun a b => b.score ≤ a.score) ∧
      (∀ r ∈ advancedRecommend {} exCorpusAB ["a"] 5, r.article_id ∉ ["a"]) ∧
      ((candidatesOf exCorpusAB ["a"]).length ≤ 5 →
        (advancedRecommend {} exCorpusAB ["a"] 5).Perm (advancedScored {} exCorpusAB ["a"])) ∧
      (∀ s : ℝ, ∃ k,
        ((advancedRecommend {} exCorpusAB ["a"] 5).filter fun r => r.score = s) =
          ((advancedScored {} exCorpusAB ["a"]).filter fun r => r.score = s).take k)) :=
  C2_output_contract {} exCorpusAB ["a"] 5 (by decide)

/-! ### Claim C9 — Advanced with zero weights refines Simple -/

theorem rankTake_map {α β : Type} (key : α → ℝ) (keyB : β → ℝ) (f : α → β)
    (hf : ∀ a, keyB (f a) = key a) (l : List α) (n : ℕ) :
    (rankTake key l n).map f = rankTake keyB (l.map f) n := by
  unfold rankTake
  rw [List.map_take]
  congr 1
  apply List.map_insertionSort
  intro a _ b _
  rw [hf, hf]

theorem advancedRecOf_zero_weights (tdd : ℤ) (corpus : List (String × Article))
    (reads : List String) (profile : List ℚ) (p : String × Article) :
    ((advancedRecOf (mkAdvancedRecommender 0 tdd 0) corpus reads profile p).article_id,
      (advancedRecOf (mkAdvancedRecommender 0 tdd 0) corpus reads profile p).score) =
    ((simpleRecOf profile p).article_id, (simpleRecOf profile p).score) := by
  simp only [advancedRecOf, simpleRecOf, mkAdvancedRecommender, semanticOf]
  congr 1
  push_cast
  ring_nf

/-- C9: with `diversityWeight = 0` and `clusterWeight = 0` the Advanced
strategy assigns every candidate the same (id, score) pair as the Simple
strategy on the same corpus and read list, for every topN; and on the spec's
two-item example corpus (orthogonal vectors, user read `a`) both strategies
recommend exactly `b` with score `0.0`. -/
theorem C9_zero_weights_refinement :
    (∀ (tdd : ℤ) (corpus : List (String × Article)) (reads : List String) (topN : ℕ),
      (advancedRecommend (mkAdvancedRecommender 0 tdd 0) corpus reads topN).map
          (fun r => (r.article_id, r.score)) =
        (simpleRecommend corpus reads topN).map (fun r => (r.article_id, r.score))) ∧
    (simpleRecommend exCorpusAB ["a"] 5).map (fun r => (r.article_id, r.score)) =
      [("b", 0)] ∧
    (advancedRecommend (mkAdvancedRecommender 0 30 0) exCorpusAB ["a"] 5).map
        (fun r => (r.article_id, r.score)) = [("b", 0)] := by
  have huniv : ∀ (tdd : ℤ) (corpus : List (String × Article)) (reads : List String)
      (topN : ℕ),
      (advancedRecommend (mkAdvancedRecommender 0 tdd 0) corpus reads topN).map
          (fun r => (r.article_id, r.score)) =
        (simpleRecommend corpus reads topN).map (fun r => (r.article_id, r.score)) := by
    intro tdd corpus reads topN
    by_cases h1 : reads = []
    · subst h1
      simp [simpleRecommend, advancedRecommend]
    by_cases h2 : userVecs corpus reads = []
    · simp [simpleRecommend, advancedRecommend, h1, h2]
    · rw [simpleRecommend_eq corpus reads topN h1 h2,
        advancedRecommend_eq (mkAdvancedRecommender 0 tdd 0) corpus reads topN h1 h2,
        rankTake_map AdvancedRec.score (fun pr : String × ℝ => pr.2) _ (fun a => rfl),
        rankTake_map SimpleRec.score (fun pr : String × ℝ => pr.2) _ (fun a => rfl)]
      congr 1
      rw [advancedScored, simpleScored, List.map_map, List.map_map]
      apply List.map_congr_left
      intro p _
      exact advancedRecOf_zero_weights tdd corpus reads (profileVector corpus reads) p
  have hsimple : (simpleRecommend exCorpusAB ["a"] 5).map
      (fun r => (r.article_id, r.score)) = [("b", 0)] := by
    rw [simpleRecommend_eq exCorpusAB ["a"] 5 (by decide) (by decide), simpleScored,
      show candidatesOf exCorpusAB ["a"] = [("b", artB)] from by decide]
    have hprof : profileVector exCorpusAB ["a"] = [1, 0] := by
      have huv : userVecs exCorpusAB ["a"] = [[1, 0]] := by decide
      rw [profileVector, huv]
      simp [vecMean, vecAdd]
    have hsc : (simpleRecOf (profileVector exCorpusAB ["a"]) ("b", artB)).score = 0 := by
      have hd : dotQ (profileVector exCorpusAB ["a"]) artB.vector = 0 := by
        rw [hprof]
        simp [dotQ, artB]
      have hcos : cosSim (profileVector exCorpusAB ["a"]) artB.vector = 0 := by
        rw [cosSim, hd]
        norm_num
      simp only [simpleRecOf]
      rw [hcos, pyRound4_zero]
    simp only [List.map_cons, List.map_nil, rankTake, List.insertionSort,
      List.orderedInsert, List.take_succ_cons, List.take_nil]
    rw [hsc]
    rfl
  exact ⟨huniv, hsimple, by rw [huniv 30 exCorpusAB ["a"] 5, hsimple]⟩

/-! ### Claim C7 — batch generation over all user profiles -/

theorem userVecs_eq_nil (corpus : List (String × Article)) (reads : List String)
    (hr : ∀ aid ∈ reads, lookupArticle corpus aid = none) :
    userVecs corpus reads = [] := by
  rw [userVecs, List.filterMap_eq_nil_iff]
  intro aid ha
  rw [hr aid ha]
  rfl

theorem simpleRecommend_unknown (corpus : List (String × Article)) (reads : List String)
    (topN : ℕ) (hr : ∀ aid ∈ reads, lookupArticle corpus aid = none) :
    simpleRecommend corpus reads topN = [] := by
  have hv := userVecs_eq_nil corpus reads hr
  unfold simpleRecommend
  rw [hv]
  split_ifs <;> simp_all

theorem advancedRecommend_unknown (par : AdvancedParams) (corpus : List (String × Article))
    (reads : List String) (topN : ℕ)
    (hr : ∀ aid ∈ reads, lookupArticle corpus aid = none) :
    advancedRecommend par corpus reads topN = [] := by
  have hv := userVecs_eq_nil corpus reads hr
  unfold advancedRecommend
  rw [hv]
  split_ifs <;> simp_all

/-- A profile whose read ids are all unknown takes the early `[]` return of
either strategy before any fallible operation, so its scoring succeeds. -/
theorem simpleRecommendE_unknown (corpus : List (String × Article))
    (reads : List String) (topN : ℕ)
    (hr : ∀ aid ∈ reads, lookupArticle corpus aid = none) :
    simpleRecommendE corpus reads topN = .ok [] := by
  have hv := userVecs_eq_nil corpus reads hr
  unfold simpleRecommendE
  rw [hv]
  split_ifs <;> simp_all

theorem advancedRecommendE_unknown (par : AdvancedParams)
    (corpus : List (String × Article)) (reads : List String) (topN : ℕ)
    (hr : ∀ aid ∈ reads, lookupArticle corpus aid = none) :
    advancedRecommendE par corpus reads topN = .ok [] := by
  have hv := userVecs_eq_nil corpus reads hr
  unfold advancedRecommendE
  rw [hv]
  split_ifs <;> simp_all

/-- The guard behaviour of the batch loop: a user appears in the output paired
with a list exactly when one of its profile entries scores successfully to that
list; a profile whose scoring raises contributes nothing, and other users are
unaffected. -/
theorem mem_generateAll_iff {α : Type}
    (f : List String → ℕ → Except String (List α))
    (profiles : List (String × List String)) (topN : ℕ) (uid : String) (l : List α) :
    (uid, l) ∈ generateAllRecommendations f profiles topN ↔
      ∃ reads, (uid, reads) ∈ profiles ∧ f reads topN = .ok l := by
  rw [generateAllRecommendations, List.mem_filterMap]
  constructor
  · rintro ⟨⟨pu, pr⟩, hp, hmatch⟩
    cases hf : f pr topN with
    | ok recs =>
      rw [hf] at hmatch
      simp only [Option.some.injEq, Prod.mk.injEq] at hmatch
      obtain ⟨h1, h2⟩ := hmatch
      subst h1
      subst h2
      exact ⟨pr, hp, hf⟩
    | error e =>
      rw [hf] at hmatch
      simp at hmatch
  · rintro ⟨reads, hp, hok⟩
    refine ⟨(uid, reads), hp, ?_⟩
    rw [hok]

/-- C7 counterexample: user `u2`, whose read list references only the unknown
id `zzz`, is PRESENT in the batch output with value `[]`, not absent as the
claim states — such a profile raises no error, so the per-user guard omits
nothing for it. -/
theorem C7_counterexample :
    generateAllRecommendations (fun r n => simpleRecommendE exCorpusAB r n) exProfiles 5 =
      [("u1", rankTake SimpleRec.score (simpleScored exCorpusAB ["a"]) 5), ("u2", [])] ∧
    ("u2", ([] : List SimpleRec)) ∈
      generateAllRecommendations (fun r n => simpleRecommendE exCorpusAB r n)
        exProfiles 5 := by
  have hu1 : simpleRecommendE exCorpusAB ["a"] 5 =
      .ok (rankTake SimpleRec.score (simpleScored exCorpusAB ["a"]) 5) := by
    unfold simpleRecommendE
    rw [if_neg (by decide), if_neg (by decide), if_neg (by decide), if_neg (by decide),
      if_neg (by decide), if_neg (by decide)]
  have hu2 : simpleRecommendE exCorpusAB ["zzz"] 5 = .ok [] :=
    simpleRecommendE_unknown exCorpusAB ["zzz"] 5 (by decide)
  have hgen : generateAllRecommendations (fun r n => simpleRecommendE exCorpusAB r n)
      exProfiles 5 =
      [("u1", rankTake SimpleRec.score (simpleScored exCorpusAB ["a"]) 5), ("u2", [])] := by
    simp only [generateAllRecommendations, exProfiles, List.filterMap_cons,
      List.filterMap_nil, hu1, hu2]
  exact ⟨hgen, by rw [hgen]; simp⟩

/-- C7 (amended): GenerateAll computes recommendations for every user profile
independently; a user is present in the output paired with a list exactly when
its profile scores successfully to that list, so a failure scoring one user is
caught, that user is omitted, and the rest of the batch is unaffected; however
a user whose read list references only item ids unknown to the corpus does not
fail — its scoring succeeds with the empty list, so it is present in the
output with `[]`, not absent. -/
theorem C7_generate_all (par : AdvancedParams) (corpus : List (String × Article))
    (profiles : List (String × List String)) (topN : ℕ) :
    (∀ uid l, (uid, l) ∈ generateAllRecommendations
        (fun r n => simpleRecommendE corpus r n) profiles topN ↔
      ∃ reads, (uid, reads) ∈ profiles ∧ simpleRecommendE corpus reads topN = .ok l) ∧
    (∀ uid l, (uid, l) ∈ generateAllRecommendations
        (fun r n => advancedRecommendE par corpus r n) profiles topN ↔
      ∃ reads, (uid, reads) ∈ profiles ∧
        advancedRecommendE par corpus reads topN = .ok l) ∧
    (∀ uid reads, (uid, reads) ∈ profiles →
      (∀ aid ∈ reads, lookupArticle corpus aid = none) →
      simpleRecommendE corpus reads topN = .ok [] ∧
      advancedRecommendE par corpus reads topN = .ok [] ∧
      (uid, ([] : List SimpleRec)) ∈ generateAllRecommendations
        (fun r n => simpleRecommendE corpus r n) profiles topN ∧
      (uid, ([] : List AdvancedRec)) ∈ generateAllRecommendations
        (fun r n => advancedRecommendE par corpus r n) profiles topN) := by
  refine ⟨fun uid l => mem_generateAll_iff _ profiles topN uid l,
    fun uid l => mem_generateAll_iff _ profiles topN uid l, ?_⟩
  intro uid reads hp hr
  have hs : simpleRecommendE corpus reads topN = .ok [] :=
    simpleRecommendE_unknown corpus reads topN hr
  have ha : advancedRecommendE par corpus reads topN = .ok [] :=
    advancedRecommendE_unknown par corpus reads topN hr
  exact ⟨hs, ha,
    (mem_generateAll_iff _ profiles topN uid []).2 ⟨reads, hp, hs⟩,
    (mem_generateAll_iff _ profiles topN uid []).2 ⟨reads, hp, ha⟩⟩

/-- C7 witness: the batch `{u1: [a], u2: [zzz]}`.  Over the two-item corpus
`u2` scores successfully and is present with `[]`; over the dated corpus with
`time_decay_days = 0`, scoring `u1` raises `ZeroDivisionError` and `u1` is
omitted from the output while `u2` is still processed. -/
theorem C7_generate_all_witness :
    (simpleRecommendE exCorpusAB ["zzz"] 5 = .ok [] ∧
      advancedRecommendE {} exCorpusAB ["zzz"] 5 = .ok [] ∧
      ("u2", ([] : List SimpleRec)) ∈ generateAllRecommendations
        (fun r n => simpleRecommendE exCorpusAB r n) exProfiles 5 ∧
      ("u2", ([] : List AdvancedRec)) ∈ generateAllRecommendations
        (fun r n => advancedRecommendE {} exCorpusAB r n) exProfiles 5) ∧
    (advancedRecommendE parZeroDecay exCorpusDated ["a"] 5 = .error "ZeroDivisionError" ∧
      (¬ ∃ l, ("u1", l) ∈ generateAllRecommendations
        (fun r n => advancedRecommendE parZeroDecay exCorpusDated r n) exProfiles 5) ∧
      ("u2", ([] : List AdvancedRec)) ∈ generateAllRecommendations
        (fun r n => advancedRecommendE parZeroDecay exCorpusDated r n) exProfiles 5) := by
  obtain ⟨hsIff, haIff, hunk⟩ := C7_generate_all {} exCorpusAB exProfiles 5
  obtain ⟨ho1, ho2, hm1, hm2⟩ := hunk "u2" ["zzz"] (by decide) (by decide)
  obtain ⟨hsIff2, haIff2, hunk2⟩ := C7_generate_all parZeroDecay exCorpusDated exProfiles 5
  have herr : advancedRecommendE parZeroDecay exCorpusDated ["a"] 5 =
      .error "ZeroDivisionError" := by
    unfold advancedRecommendE
    rw [if_neg (by decide), if_neg (by decide), if_neg (by decide), if_neg (by decide),
      if_neg (by decide), if_neg (by decide), if_pos (by decide)]
  refine ⟨⟨ho1, ho2, hm1, hm2⟩, herr, ?_, ?_⟩
  · rintro ⟨l, hl⟩
    obtain ⟨reads, hpr, hok⟩ := (haIff2 "u1" l).1 hl
    rcases List.mem_cons.1 hpr with h | h
    · simp only [Prod.mk.injEq] at h
      rw [h.2, herr] at hok
      exact absurd hok (by simp)
    · rcases List.mem_cons.1 h with h2 | h2
      · simp at h2
      · simp at h2
  · obtain ⟨_, _, _, hm⟩ := hunk2 "u2" ["zzz"] (by decide) (by decide)
    exact hm

/-! ### Claim C8 — maximal marginal relevance -/

theorem argmaxIdx_lt_length : ∀ {l : List ℝ}, l ≠ [] → argmaxIdx l < l.length := by
  intro l
  induction l with
  | nil => intro h; exact absurd rfl h
  | cons x xs ih =>
    intro _
    rw [argmaxIdx]
    split_ifs with h
    · simp
    · have hxs : xs ≠ [] := by
        rintro rfl
        exact h (by simp)
      have := ih hxs
      simp only [List.length_cons]
      omega

theorem argmaxIdx_max : ∀ (l : List ℝ) (y : ℝ), y ∈ l → y ≤ l.getD (argmaxIdx l) 0 := by
  intro l
  induction l with
  | nil => intro y hy; simp at hy
  | cons x xs ih =>
    intro y hy
    rw [argmaxIdx]
    split_ifs with h
    · rcases List.mem_cons.1 hy with rfl | hmem
      · simp
      · simpa using h y hmem
    · simp only [List.getD_cons_succ]
      rcases List.mem_cons.1 hy with rfl | hmem
      · push_neg at h
        obtain ⟨z, hz, hzy⟩ := h
        exact le_trans (le_of_lt hzy) (ih z hz)
      · exact ih y hmem

theorem mmrLoop_length (lam : ℝ) (rel : ℕ → ℝ) (pairSim : ℕ → ℕ → ℝ) (topN : ℕ) :
    ∀ (fuel : ℕ) (selected remaining : List ℕ), remaining.length ≤ fuel →
      (mmrLoop lam rel pairSim topN fuel selected remaining).length =
        max selected.length (min topN (selected.length + remaining.length)) := by
  intro fuel
  induction fuel with
  | zero =>
    intro sel rem h
    have hrem : rem = [] := List.length_eq_zero.1 (Nat.le_zero.1 h)
    subst hrem
    rw [mmrLoop]
    simp only [List.length_nil]
    omega
  | succ fuel ih =>
    intro sel rem h
    rw [mmrLoop]
    by_cases hc : sel.length < topN ∧ rem ≠ []
    · rw [if_pos hc]
      have hlt : argmaxIdx (rem.map fun idx =>
          lam * rel idx - (1 - lam) * meanR (sel.map fun j => pairSim idx j)) <
            rem.length := by
        have hne : (rem.map fun idx =>
            lam * rel idx - (1 - lam) * meanR (sel.map fun j => pairSim idx j)) ≠ [] := by
          simpa using hc.2
        have := argmaxIdx_lt_length hne
        simpa using this
      have hpick : mmrPick lam rel pairSim sel rem ∈ rem := by
        rw [mmrPick, List.getD_eq_getElem rem 0 hlt]
        exact List.getElem_mem _
      have herase : (rem.erase (mmrPick lam rel pairSim sel rem)).length =
          rem.length - 1 := List.length_erase_of_mem hpick
      have hrem1 : 1 ≤ rem.length := by
        have := List.length_pos.2 hc.2
        omega
      rw [ih _ _ (by omega)]
      rw [List.length_append, herase]
      simp only [List.length_cons, List.length_nil]
      omega
    · rw [if_neg hc]
      have hd : topN ≤ sel.length ∨ rem.length = 0 := by
        by_cases hA : sel.length < topN
        · right
          have hB : rem = [] := by
            by_contra hB
            exact hc ⟨hA, hB⟩
          rw [hB]
          rfl
        · left
          omega
      omega

theorem mmrLoop_head (lam : ℝ) (rel : ℕ → ℝ) (pairSim : ℕ → ℕ → ℝ) (topN : ℕ) :
    ∀ (fuel : ℕ) (selected remaining : List ℕ), selected ≠ [] →
      (mmrLoop lam rel pairSim topN fuel selected remaining).head? =
        selected.head? := by
  intro fuel
  induction fuel with
  | zero =>
    intro sel rem _
    rw [mmrLoop]
  | succ fuel ih =>
    intro sel rem h
    rw [mmrLoop]
    split_ifs with hc
    · rw [ih _ _ (by simp)]
      cases sel with
      | nil => exact absurd rfl h
      | cons a t => simp
    · rfl

/-- C8 counterexample: with `top_n = 0` and one candidate, the utility still
returns 1 item — the initial most-relevant pick happens before the loop test —
so "returns exactly min(N, candidateCount) items" fails at `N = 0`. -/
theorem C8_counterexample :
    (maximalMarginalRelevance [1] [("a", [1])] (1/2) 0).length = 1 ∧
    min 0 (List.length [("a", ([1] : List ℚ))]) = 0 ∧ (1 : ℕ) ≠ 0 := by
  refine ⟨?_, by simp, by norm_num⟩
  rw [maximalMarginalRelevance, List.length_map]
  have hfirst : argmaxIdx (mmrSims [1] [("a", [1])]) ∈
      List.range (List.length [("a", ([1] : List ℚ))]) := by
    refine List.mem_range.2 ?_
    have hne : mmrSims [1] [("a", [1])] ≠ [] := by simp [mmrSims]
    have := argmaxIdx_lt_length hne
    simpa [mmrSims] using this
  rw [mmrLoop_length _ _ _ _ _ _ _
    (by rw [List.length_erase_of_mem hfirst, List.length_range]; omega)]
  rw [List.length_erase_of_mem hfirst, List.length_range]
  simp

/-- C8 (amended): for every non-empty candidate set and every `N ≥ 1` (for
`N = 0` the initial pick still returns one item — see the counterexample), the
MMR utility returns exactly `min(N, candidateCount)` items; its first returned
item is the candidate at the first index of maximal cosine similarity to the
query, paired with that similarity, and that similarity is maximal among all
candidate relevances. -/
theorem C8_mmr_selection (query : List ℚ) (cands : List (String × List ℚ)) (lam : ℝ)
    (topN : ℕ) (hc : cands ≠ []) (ht : 1 ≤ topN) :
    (maximalMarginalRelevance query cands lam topN).length = min topN cands.length ∧
    (maximalMarginalRelevance query cands lam topN).head? = some
      ((cands.getD (argmaxIdx (mmrSims query cands)) ("", [])).1,
        (mmrSims query cands).getD (argmaxIdx (mmrSims query cands)) 0) ∧
    (∀ s ∈ mmrSims query cands,
      s ≤ (mmrSims query cands).getD (argmaxIdx (mmrSims query cands)) 0) := by
  have hn : 1 ≤ cands.length := List.length_pos.2 hc
  have hfirst : argmaxIdx (mmrSims query cands) ∈ List.range cands.length := by
    refine List.mem_range.2 ?_
    have hne : mmrSims query cands ≠ [] := by simp [mmrSims, hc]
    have := argmaxIdx_lt_length hne
    simpa [mmrSims] using this
  refine ⟨?_, ?_, ?_⟩
  · rw [maximalMarginalRelevance, List.length_map]
    rw [mmrLoop_length _ _ _ _ _ _ _
      (by rw [List.length_erase_of_mem hfirst, List.length_range]; omega)]
    rw [List.length_erase_of_mem hfirst, List.length_range]
    simp only [List.length_cons, List.length_nil]
    omega
  · rw [maximalMarginalRelevance, List.head?_map,
      mmrLoop_head _ _ _ _ _ _ _ (by simp)]
    rfl
  · intro s hs
    exact argmaxIdx_max _ s hs

/-- C8 witness: a single candidate with `N = 1`. -/
theorem C8_mmr_selection_witness :
    (maximalMarginalRelevance [1] [("a", [1])] (1/2) 1).length =
      min 1 (List.length [("a", ([1] : List ℚ))]) ∧
    (maximalMarginalRelevance [1] [("a", [1])] (1/2) 1).head? = some
      ((([("a", ([1] : List ℚ))]).getD (argmaxIdx (mmrSims [1] [("a", [1])])) ("", [])).1,
        (mmrSims [1] [("a", [1])]).getD (argmaxIdx (mmrSims [1] [("a", [1])])) 0) ∧
    (∀ s ∈ mmrSims [1] [("a", [1])],
      s ≤ (mmrSims [1] [("a", [1])]).getD (argmaxIdx (mmrSims [1] [("a", [1])])) 0) :=
  C8_mmr_selection [1] [("a", [1])] (1/2) 1 (by decide) (by norm_num)
